import Mathlib

/-!
Verification of the rotating-cube diorama program (src/claseex/src/main.rs).

The `f32` arithmetic of the program is modelled by exact real arithmetic
(`ℝ`); trigonometric functions become `Real.cos` / `Real.sin`.  The 8-bit
colour channels (`u8`) are modelled by `ℕ` together with the saturating
cast `f32_as_u8` that makes the Rust cast `expr as u8` explicit
(truncation towards zero, clamped to `[0, 255]`).
-/

open Real

namespace Claseex

/-! ### Data model and operations -/

/-- The `Vector3` value type of the vector math library: an (x, y, z)
real-valued triple. -/
@[ext]
structure Vector3 where
  x : ℝ
  y : ℝ
  z : ℝ

/-- Componentwise subtraction, as used by `light_position - surface_position`. -/
instance : Sub Vector3 := ⟨fun v w => ⟨v.x - w.x, v.y - w.y, v.z - w.z⟩⟩

/-- Componentwise addition of vectors. -/
instance : Add Vector3 := ⟨fun v w => ⟨v.x + w.x, v.y + w.y, v.z + w.z⟩⟩

/-- Scalar multiplication of a vector. -/
instance : SMul ℝ Vector3 := ⟨fun s v => ⟨s * v.x, s * v.y, s * v.z⟩⟩

/-- Dot product of two vectors (the library method `Vector3::dot`). -/
def Vector3.dot (v w : Vector3) : ℝ := v.x * w.x + v.y * w.y + v.z * w.z

/-- Euclidean length of a vector (the library method `Vector3::length`). -/
noncomputable def Vector3.length (v : Vector3) : ℝ :=
  Real.sqrt (v.x * v.x + v.y * v.y + v.z * v.z)

/-- The library method `Vector3::normalized`: the vector scaled by the
reciprocal of its length.  (In Lean, division by a zero length yields the
zero vector.) -/
noncomputable def Vector3.normalized (v : Vector3) : Vector3 :=
  ⟨v.x / v.length, v.y / v.length, v.z / v.length⟩

/-- The `Color` value type: (r, g, b, a) 8-bit unsigned intensities,
modelled as natural numbers (in-range colours have every field `≤ 255`). -/
@[ext]
structure Color where
  r : ℕ
  g : ℕ
  b : ℕ
  a : ℕ
deriving DecidableEq

/-- The saturating Rust float-to-`u8` cast `expr as u8`: truncation towards
zero (on nonnegative inputs this is the floor; negative inputs give 0 via
`Nat.floor`), clamped above at 255. -/
noncomputable def f32_as_u8 (x : ℝ) : ℕ := min (Nat.floor x) 255

/-- The function `rotate_vector` (main.rs:4-32): rotates `v` around the Y
axis, then the X axis (using the already-updated z), then the Z axis
(using the updated x, y), returning the new vector. -/
noncomputable def rotate_vector (v : Vector3) (angle_x angle_y angle_z : ℝ) : Vector3 :=
  -- Rotación alrededor del eje Y
  let cos_y := Real.cos angle_y
  let sin_y := Real.sin angle_y
  let temp_x := v.x * cos_y - v.z * sin_y
  let temp_z := v.x * sin_y + v.z * cos_y
  -- Rotación alrededor del eje X
  let cos_x := Real.cos angle_x
  let sin_x := Real.sin angle_x
  let temp_y := v.y * cos_x - temp_z * sin_x
  let temp_z2 := v.y * sin_x + temp_z * cos_x
  -- Rotación alrededor del eje Z
  let cos_z := Real.cos angle_z
  let sin_z := Real.sin angle_z
  let temp_x2 := temp_x * cos_z - temp_y * sin_z
  let temp_y2 := temp_x * sin_z + temp_y * cos_z
  ⟨temp_x2, temp_y2, temp_z2⟩

/-- The function `calculate_diffuse_lighting` (main.rs:35-60): diffuse
shading of a base colour from a surface point, surface normal, light
position and ambient/diffuse intensities. -/
noncomputable def calculate_diffuse_lighting
    (surface_position surface_normal light_position : Vector3)
    (base_color : Color)
    (ambient_intensity diffuse_intensity : ℝ) : Color :=
  let light_direction := (light_position - surface_position).normalized
  let dot_product := max (surface_normal.dot light_direction) 0
  let lighting := ambient_intensity + diffuse_intensity * dot_product
  let lighting2 := min lighting 1
  ⟨f32_as_u8 (base_color.r * lighting2),
   f32_as_u8 (base_color.g * lighting2),
   f32_as_u8 (base_color.b * lighting2),
   base_color.a⟩

/-! ### Spec-side stage definitions for the rotation refinement claim

These three definitions follow the stage formulas of the specification
(spec §4.1) and are compared against `rotate_vector` from the source. -/

/-- Spec stage "rotate around Y": x' = x·cos(ay) − z·sin(ay),
z' = x·sin(ay) + z·cos(ay), y unchanged. -/
noncomputable def spec_rotate_stage_y (v : Vector3) (ay : ℝ) : Vector3 :=
  ⟨v.x * Real.cos ay - v.z * Real.sin ay, v.y, v.x * Real.sin ay + v.z * Real.cos ay⟩

/-- Spec stage "rotate around X": y' = y·cos(ax) − z·sin(ax),
z' = y·sin(ax) + z·cos(ax), x unchanged. -/
noncomputable def spec_rotate_stage_x (v : Vector3) (ax : ℝ) : Vector3 :=
  ⟨v.x, v.y * Real.cos ax - v.z * Real.sin ax, v.y * Real.sin ax + v.z * Real.cos ax⟩

/-- Spec stage "rotate around Z": x' = x·cos(az) − y·sin(az),
y' = x·sin(az) + y·cos(az), z unchanged. -/
noncomputable def spec_rotate_stage_z (v : Vector3) (az : ℝ) : Vector3 :=
  ⟨v.x * Real.cos az - v.y * Real.sin az, v.x * Real.sin az + v.y * Real.cos az, v.z⟩

/-! ### Frame-loop state and composite colour -/

/-- The mutable per-frame rotation angles of the main loop
(main.rs:82-84), in degrees. -/
@[ext]
structure RotationState where
  rotation_x : ℝ
  rotation_y : ℝ
  rotation_z : ℝ

/-- Initial rotation state (main.rs:82-84): all three angles start at 0. -/
def initial_rotation : RotationState := ⟨0, 0, 0⟩

/-- One tick of the angle update (main.rs:97-99), with `dt` the elapsed
frame time in seconds returned by the clock for this tick. -/
def update_rotation (s : RotationState) (dt : ℝ) : RotationState :=
  ⟨s.rotation_x + 20 * dt, s.rotation_y + 30 * dt, s.rotation_z + 25 * dt⟩

/-- The Rust `f32::to_radians` conversion: multiply by π/180. -/
noncomputable def to_radians (x : ℝ) : ℝ := x * (Real.pi / 180)

/-- Front-face normal (main.rs:145): (0,0,1) rotated by the current
angles converted to radians. -/
noncomputable def front_normal (s : RotationState) : Vector3 :=
  rotate_vector ⟨0, 0, 1⟩ (to_radians s.rotation_x) (to_radians s.rotation_y)
    (to_radians s.rotation_z)

/-- Top-face normal (main.rs:156): (0,1,0) rotated likewise. -/
noncomputable def top_normal (s : RotationState) : Vector3 :=
  rotate_vector ⟨0, 1, 0⟩ (to_radians s.rotation_x) (to_radians s.rotation_y)
    (to_radians s.rotation_z)

/-- Right-face normal (main.rs:167): (1,0,0) rotated likewise. -/
noncomputable def right_normal (s : RotationState) : Vector3 :=
  rotate_vector ⟨1, 0, 0⟩ (to_radians s.rotation_x) (to_radians s.rotation_y)
    (to_radians s.rotation_z)

/-- The composite cube colour of each frame (main.rs:178-184): the red
channels of the three per-face shaded colours are averaged into one
scalar factor, which scales the r, g, b channels of the base colour;
alpha is fixed at 255. -/
noncomputable def lit_cube_color (front_color top_color right_color base_cube_color : Color) :
    Color :=
  let avg_lighting :=
    ((front_color.r : ℝ) + (top_color.r : ℝ) + (right_color.r : ℝ)) / (3 * 255)
  ⟨f32_as_u8 ((base_cube_color.r : ℝ) * avg_lighting),
   f32_as_u8 ((base_cube_color.g : ℝ) * avg_lighting),
   f32_as_u8 ((base_cube_color.b : ℝ) * avg_lighting),
   255⟩

/-- The base colour of the cube (main.rs:141). -/
def base_cube_color : Color := ⟨100, 150, 255, 255⟩

/-- Modelled from the spec (testable property §8): a proper per-channel
average of the three shaded colours, each of r, g, b averaged
independently, for comparison with `lit_cube_color`. -/
noncomputable def per_channel_average (front_color top_color right_color : Color) : Color :=
  ⟨f32_as_u8 (((front_color.r : ℝ) + (top_color.r : ℝ) + (right_color.r : ℝ)) / 3),
   f32_as_u8 (((front_color.g : ℝ) + (top_color.g : ℝ) + (right_color.g : ℝ)) / 3),
   f32_as_u8 (((front_color.b : ℝ) + (top_color.b : ℝ) + (right_color.b : ℝ)) / 3),
   255⟩

/-! ### Basic unfolding lemmas -/

theorem Vector3.sub_def (v w : Vector3) : v - w = ⟨v.x - w.x, v.y - w.y, v.z - w.z⟩ := rfl

theorem Vector3.add_def (v w : Vector3) : v + w = ⟨v.x + w.x, v.y + w.y, v.z + w.z⟩ := rfl

theorem Vector3.smul_def (s : ℝ) (v : Vector3) : s • v = ⟨s * v.x, s * v.y, s * v.z⟩ := rfl

/-- When the scaling factor is at most 1 and the channel is an in-range
u8 value, the saturating cast is just the floor: the upper clamp at 255
never fires. -/
theorem f32_as_u8_channel_mul {ch : ℕ} {L : ℝ} (hch : ch ≤ 255) (hL : L ≤ 1) :
    f32_as_u8 ((ch : ℝ) * L) = ⌊(ch : ℝ) * L⌋₊ := by
  have h0 : (0 : ℝ) ≤ (ch : ℝ) := Nat.cast_nonneg ch
  have h255 : (ch : ℝ) ≤ 255 := by exact_mod_cast hch
  have hx : (ch : ℝ) * L ≤ 255 := by
    nlinarith [mul_nonneg h0 (sub_nonneg.mpr hL)]
  have hfl : ⌊(ch : ℝ) * L⌋₊ ≤ 255 := by
    calc ⌊(ch : ℝ) * L⌋₊ ≤ ⌊(255 : ℝ)⌋₊ := Nat.floor_le_floor hx
    _ = 255 := by norm_num
  exact min_eq_left hfl

/-- Evaluation rule for the saturating cast on an in-range input. -/
theorem f32_as_u8_eq {x : ℝ} {m : ℕ} (h1 : (m : ℝ) ≤ x) (h2 : x < (m : ℝ) + 1)
    (h3 : m ≤ 255) : f32_as_u8 x = m := by
  have h0 : (0 : ℝ) ≤ x := le_trans (Nat.cast_nonneg m) h1
  have hfl : ⌊x⌋₊ = m := (Nat.floor_eq_iff h0).mpr ⟨h1, h2⟩
  simp [f32_as_u8, hfl, h3]

/-- Normalizing the unit x vector (as a light-minus-surface difference)
gives it back. -/
theorem normalized_unit_x : ((⟨1, 0, 0⟩ : Vector3) - ⟨0, 0, 0⟩).normalized = ⟨1, 0, 0⟩ := by
  simp [Vector3.sub_def, Vector3.normalized, Vector3.length]

/-- Shading the base cube colour with a normal pointing straight at the
light (ambient 3/10, diffuse 7/10): lighting clamps to 1, the colour is
unchanged. -/
theorem shaded_face_toward_light :
    calculate_diffuse_lighting ⟨0, 0, 0⟩ ⟨1, 0, 0⟩ ⟨1, 0, 0⟩ base_cube_color (3/10) (7/10) =
      ⟨100, 150, 255, 255⟩ := by
  simp only [calculate_diffuse_lighting, base_cube_color, normalized_unit_x]
  refine Color.ext ?_ ?_ ?_ rfl <;>
    exact f32_as_u8_eq (by norm_num [Vector3.dot, min_def, max_def])
      (by norm_num [Vector3.dot, min_def, max_def]) (by norm_num)

/-- Shading the base cube colour with a normal orthogonal to the light
direction (ambient 3/10, diffuse 7/10): lighting is 3/10. -/
theorem shaded_face_orthogonal_y :
    calculate_diffuse_lighting ⟨0, 0, 0⟩ ⟨0, 1, 0⟩ ⟨1, 0, 0⟩ base_cube_color (3/10) (7/10) =
      ⟨30, 45, 76, 255⟩ := by
  simp only [calculate_diffuse_lighting, base_cube_color, normalized_unit_x]
  refine Color.ext ?_ ?_ ?_ rfl <;>
    exact f32_as_u8_eq (by norm_num [Vector3.dot, min_def, max_def])
      (by norm_num [Vector3.dot, min_def, max_def]) (by norm_num)

/-- Shading the base cube colour with the other orthogonal normal
(ambient 3/10, diffuse 7/10): lighting is again 3/10. -/
theorem shaded_face_orthogonal_z :
    calculate_diffuse_lighting ⟨0, 0, 0⟩ ⟨0, 0, 1⟩ ⟨1, 0, 0⟩ base_cube_color (3/10) (7/10) =
      ⟨30, 45, 76, 255⟩ := by
  simp only [calculate_diffuse_lighting, base_cube_color, normalized_unit_x]
  refine Color.ext ?_ ?_ ?_ rfl <;>
    exact f32_as_u8_eq (by norm_num [Vector3.dot, min_def, max_def])
      (by norm_num [Vector3.dot, min_def, max_def]) (by norm_num)

/-! ### The claims -/

/-- C1: `rotate_vector` is exactly the composition of the three spec
stages, in the order Y, then X, then Z, each stage consuming the output
of the previous stage. -/
theorem rotate_vector_is_stage_composition (v : Vector3) (ax ay az : ℝ) :
    rotate_vector v ax ay az =
      spec_rotate_stage_z (spec_rotate_stage_x (spec_rotate_stage_y v ay) ax) az := by
  simp [rotate_vector, spec_rotate_stage_y, spec_rotate_stage_x, spec_rotate_stage_z]

/-- C5: rotating by zero angles is the identity. -/
theorem rotate_vector_zero_id (v : Vector3) : rotate_vector v 0 0 0 = v := by
  ext <;> simp [rotate_vector]

/-- C6: for fixed angles, `rotate_vector` is linear in its vector argument:
it commutes with scalar multiplication and with vector addition. -/
theorem rotate_vector_linear (ax ay az : ℝ) :
    (∀ (s : ℝ) (v : Vector3),
        rotate_vector (s • v) ax ay az = s • rotate_vector v ax ay az) ∧
    (∀ u v : Vector3,
        rotate_vector (u + v) ax ay az =
          rotate_vector u ax ay az + rotate_vector v ax ay az) := by
  constructor
  · intro s v
    ext <;> simp [rotate_vector, Vector3.smul_def] <;> ring
  · intro u v
    ext <;> simp [rotate_vector, Vector3.add_def] <;> ring

/-- C2: for distinct light and surface positions and an in-range base
colour, `calculate_diffuse_lighting` returns exactly the colour whose
r, g, b channels are the floor of the base channel times
min(1, ambient + diffuse · max(0, dot(normal, normalize(light − surface)))),
with the alpha channel copied unchanged. -/
theorem calculate_diffuse_lighting_formula
    (sp n lp : Vector3) (c : Color) (amb dif : ℝ)
    (hne : lp ≠ sp) (hr : c.r ≤ 255) (hg : c.g ≤ 255) (hb : c.b ≤ 255) :
    calculate_diffuse_lighting sp n lp c amb dif =
      ⟨⌊(c.r : ℝ) * min 1 (amb + dif * max 0 (Vector3.dot n ((lp - sp).normalized)))⌋₊,
       ⌊(c.g : ℝ) * min 1 (amb + dif * max 0 (Vector3.dot n ((lp - sp).normalized)))⌋₊,
       ⌊(c.b : ℝ) * min 1 (amb + dif * max 0 (Vector3.dot n ((lp - sp).normalized)))⌋₊,
       c.a⟩ := by
  simp only [calculate_diffuse_lighting]
  rw [f32_as_u8_channel_mul hr (min_le_right _ _),
      f32_as_u8_channel_mul hg (min_le_right _ _),
      f32_as_u8_channel_mul hb (min_le_right _ _),
      max_comm (Vector3.dot n ((lp - sp).normalized)) 0,
      min_comm (amb + dif * max 0 (Vector3.dot n ((lp - sp).normalized))) 1]

/-- Witness for C2 at a concrete input: light at (1,0,0), surface at the
origin, normal (1,0,0), base colour (100,150,255,7), ambient 1/2,
diffuse 1/4; the lighting factor is 3/4 and the output is (75,112,191,7). -/
theorem calculate_diffuse_lighting_formula_witness :
    (⟨1, 0, 0⟩ : Vector3) ≠ ⟨0, 0, 0⟩ ∧
    calculate_diffuse_lighting ⟨0, 0, 0⟩ ⟨1, 0, 0⟩ ⟨1, 0, 0⟩ ⟨100, 150, 255, 7⟩ (1/2) (1/4) =
      ⟨75, 112, 191, 7⟩ := by
  have hne : (⟨1, 0, 0⟩ : Vector3) ≠ ⟨0, 0, 0⟩ := by
    simp [Vector3.ext_iff]
  refine ⟨hne, ?_⟩
  have h := calculate_diffuse_lighting_formula ⟨0, 0, 0⟩ ⟨1, 0, 0⟩ ⟨1, 0, 0⟩
    ⟨100, 150, 255, 7⟩ (1/2) (1/4) hne (by norm_num) (by norm_num) (le_refl _)
  rw [h, normalized_unit_x]
  simp only [Vector3.dot]
  norm_num [Color.mk.injEq, Nat.floor_eq_iff]

/-- C7: when the rotated normal faces directly away from the light
(negative dot product), the diffuse term contributes nothing: the output
channels are the base channels scaled by min(1, ambient), alpha unchanged. -/
theorem calculate_diffuse_lighting_backfacing
    (sp n lp : Vector3) (c : Color) (amb dif : ℝ)
    (hne : lp ≠ sp)
    (hdot : Vector3.dot n ((lp - sp).normalized) < 0)
    (hr : c.r ≤ 255) (hg : c.g ≤ 255) (hb : c.b ≤ 255) :
    calculate_diffuse_lighting sp n lp c amb dif =
      ⟨⌊(c.r : ℝ) * min 1 amb⌋₊, ⌊(c.g : ℝ) * min 1 amb⌋₊, ⌊(c.b : ℝ) * min 1 amb⌋₊, c.a⟩ := by
  simp only [calculate_diffuse_lighting]
  rw [max_eq_right hdot.le]
  rw [f32_as_u8_channel_mul hr (min_le_right _ _),
      f32_as_u8_channel_mul hg (min_le_right _ _),
      f32_as_u8_channel_mul hb (min_le_right _ _)]
  simp [min_comm]

/-- Witness for C7 at a concrete input: the normal (-1,0,0) faces away
from the light at (1,0,0); with ambient 1/2 the output is the base colour
(100,150,255,9) scaled by 1/2, i.e. (50,75,127,9). -/
theorem calculate_diffuse_lighting_backfacing_witness :
    (⟨1, 0, 0⟩ : Vector3) ≠ ⟨0, 0, 0⟩ ∧
    Vector3.dot ⟨-1, 0, 0⟩ (((⟨1, 0, 0⟩ : Vector3) - ⟨0, 0, 0⟩).normalized) < 0 ∧
    calculate_diffuse_lighting ⟨0, 0, 0⟩ ⟨-1, 0, 0⟩ ⟨1, 0, 0⟩ ⟨100, 150, 255, 9⟩ (1/2) 3 =
      ⟨50, 75, 127, 9⟩ := by
  have hne : (⟨1, 0, 0⟩ : Vector3) ≠ ⟨0, 0, 0⟩ := by
    simp [Vector3.ext_iff]
  have hdot : Vector3.dot ⟨-1, 0, 0⟩ (((⟨1, 0, 0⟩ : Vector3) - ⟨0, 0, 0⟩).normalized) < 0 := by
    rw [normalized_unit_x]; norm_num [Vector3.dot]
  refine ⟨hne, hdot, ?_⟩
  have h := calculate_diffuse_lighting_backfacing ⟨0, 0, 0⟩ ⟨-1, 0, 0⟩ ⟨1, 0, 0⟩
    ⟨100, 150, 255, 9⟩ (1/2) 3 hne hdot (by norm_num) (by norm_num) (le_refl _)
  rw [h]
  norm_num [Color.mk.injEq, Nat.floor_eq_iff]

/-- C8: with ambient intensity 1 and diffuse intensity 0 the lighting
factor clamps to exactly 1, so an in-range base colour is returned
unchanged in all four channels. -/
theorem calculate_diffuse_lighting_ambient_one
    (sp n lp : Vector3) (c : Color)
    (hne : lp ≠ sp) (hr : c.r ≤ 255) (hg : c.g ≤ 255) (hb : c.b ≤ 255) :
    calculate_diffuse_lighting sp n lp c 1 0 = c := by
  obtain ⟨r, g, b, a⟩ := c
  simp only [calculate_diffuse_lighting, zero_mul, add_zero, min_self, mul_one]
  simp only [f32_as_u8, Nat.floor_natCast]
  simp_all [min_eq_left]

/-- Witness for C8 at a concrete input: light at (1,0,0), surface at the
origin; the base colour (100,150,255,9) is returned unchanged. -/
theorem calculate_diffuse_lighting_ambient_one_witness :
    (⟨1, 0, 0⟩ : Vector3) ≠ ⟨0, 0, 0⟩ ∧
    calculate_diffuse_lighting ⟨0, 0, 0⟩ ⟨0, 1, 0⟩ ⟨1, 0, 0⟩ ⟨100, 150, 255, 9⟩ 1 0 =
      ⟨100, 150, 255, 9⟩ :=
  ⟨by simp [Vector3.ext_iff],
   calculate_diffuse_lighting_ambient_one ⟨0, 0, 0⟩ ⟨0, 1, 0⟩ ⟨1, 0, 0⟩ ⟨100, 150, 255, 9⟩
     (by simp [Vector3.ext_iff]) (by norm_num) (by norm_num) (le_refl _)⟩

/-- C3: the composite cube colour is built from the red channels of the
three per-face shaded colours only — the scalar factor is
(front.r + top.r + right.r)/(3·255) applied to the r, g, b of the base
colour with alpha fixed at 255; the g and b channels of the faces are
discarded; and on three actually-shaded face colours of the base colour
(whose r, g, b are pairwise unequal) the result differs from a proper
per-channel average of the shaded colours. -/
theorem lit_cube_color_red_channel_only :
    (∀ front top right base : Color,
        lit_cube_color front top right base =
          ⟨f32_as_u8 ((base.r : ℝ) * (((front.r : ℝ) + (top.r : ℝ) + (right.r : ℝ)) / (3 * 255))),
           f32_as_u8 ((base.g : ℝ) * (((front.r : ℝ) + (top.r : ℝ) + (right.r : ℝ)) / (3 * 255))),
           f32_as_u8 ((base.b : ℝ) * (((front.r : ℝ) + (top.r : ℝ) + (right.r : ℝ)) / (3 * 255))),
           255⟩) ∧
    (∀ front top right base : Color,
        lit_cube_color front top right base =
          lit_cube_color ⟨front.r, 0, 0, 0⟩ ⟨top.r, 0, 0, 0⟩ ⟨right.r, 0, 0, 0⟩ base) ∧
    (base_cube_color.r ≠ base_cube_color.g ∧ base_cube_color.g ≠ base_cube_color.b) ∧
    lit_cube_color
        (calculate_diffuse_lighting ⟨0, 0, 0⟩ ⟨1, 0, 0⟩ ⟨1, 0, 0⟩ base_cube_color (3/10) (7/10))
        (calculate_diffuse_lighting ⟨0, 0, 0⟩ ⟨0, 1, 0⟩ ⟨1, 0, 0⟩ base_cube_color (3/10) (7/10))
        (calculate_diffuse_lighting ⟨0, 0, 0⟩ ⟨0, 0, 1⟩ ⟨1, 0, 0⟩ base_cube_color (3/10) (7/10))
        base_cube_color ≠
      per_channel_average
        (calculate_diffuse_lighting ⟨0, 0, 0⟩ ⟨1, 0, 0⟩ ⟨1, 0, 0⟩ base_cube_color (3/10) (7/10))
        (calculate_diffuse_lighting ⟨0, 0, 0⟩ ⟨0, 1, 0⟩ ⟨1, 0, 0⟩ base_cube_color (3/10) (7/10))
        (calculate_diffuse_lighting ⟨0, 0, 0⟩ ⟨0, 0, 1⟩ ⟨1, 0, 0⟩ base_cube_color (3/10) (7/10)) := by
  refine ⟨fun front top right base => rfl, fun front top right base => rfl, ⟨?_, ?_⟩, ?_⟩
  · simp [base_cube_color]
  · simp [base_cube_color]
  · rw [shaded_face_toward_light, shaded_face_orthogonal_y, shaded_face_orthogonal_z]
    have hlit : lit_cube_color ⟨100, 150, 255, 255⟩ ⟨30, 45, 76, 255⟩ ⟨30, 45, 76, 255⟩
        base_cube_color = ⟨20, 31, 53, 255⟩ := by
      simp only [lit_cube_color, base_cube_color]
      refine Color.ext ?_ ?_ ?_ rfl <;>
        exact f32_as_u8_eq (by norm_num) (by norm_num) (by norm_num)
    have havg : per_channel_average ⟨100, 150, 255, 255⟩ ⟨30, 45, 76, 255⟩ ⟨30, 45, 76, 255⟩ =
        ⟨53, 80, 135, 255⟩ := by
      simp only [per_channel_average]
      refine Color.ext ?_ ?_ ?_ rfl <;>
        exact f32_as_u8_eq (by norm_num) (by norm_num) (by norm_num)
    rw [hlit, havg]
    decide

/-- C4: at t=0 the angles are (0,0,0); one tick advances each angle by
its angular velocity times dt, so one tick with dt = 1 yields exactly
(20, 30, 25) degrees; and the angles are converted from degrees to
radians (multiplied by π/180) before being passed to `rotate_vector`. -/
theorem rotation_angles_per_tick :
    initial_rotation = ⟨0, 0, 0⟩ ∧
    (∀ (s : RotationState) (dt : ℝ),
        update_rotation s dt =
          ⟨s.rotation_x + 20 * dt, s.rotation_y + 30 * dt, s.rotation_z + 25 * dt⟩) ∧
    update_rotation initial_rotation 1 = ⟨20, 30, 25⟩ ∧
    (∀ s : RotationState,
        front_normal s =
          rotate_vector ⟨0, 0, 1⟩ (s.rotation_x * (Real.pi / 180))
            (s.rotation_y * (Real.pi / 180)) (s.rotation_z * (Real.pi / 180)) ∧
        top_normal s =
          rotate_vector ⟨0, 1, 0⟩ (s.rotation_x * (Real.pi / 180))
            (s.rotation_y * (Real.pi / 180)) (s.rotation_z * (Real.pi / 180)) ∧
        right_normal s =
          rotate_vector ⟨1, 0, 0⟩ (s.rotation_x * (Real.pi / 180))
            (s.rotation_y * (Real.pi / 180)) (s.rotation_z * (Real.pi / 180))) := by
  refine ⟨rfl, fun s dt => rfl, ?_, fun s => ⟨rfl, rfl, rfl⟩⟩
  simp [update_rotation, initial_rotation]

/-- C9: each tick with dt ≥ 0 adds exactly the per-axis velocity times dt
to each angle (never decrements or wraps), each angle is monotone across
the tick, and for any positive dt the iterated angles from the initial
state exceed every bound. -/
theorem rotation_angles_monotone_unbounded (s : RotationState) (dt : ℝ) (hdt : 0 ≤ dt) :
    ((update_rotation s dt).rotation_x = s.rotation_x + 20 * dt ∧
     (update_rotation s dt).rotation_y = s.rotation_y + 30 * dt ∧
     (update_rotation s dt).rotation_z = s.rotation_z + 25 * dt) ∧
    (s.rotation_x ≤ (update_rotation s dt).rotation_x ∧
     s.rotation_y ≤ (update_rotation s dt).rotation_y ∧
     s.rotation_z ≤ (update_rotation s dt).rotation_z) ∧
    (∀ B : ℝ, 0 < dt → ∃ m : ℕ,
        B < ((fun t => update_rotation t dt)^[m] initial_rotation).rotation_x ∧
        B < ((fun t => update_rotation t dt)^[m] initial_rotation).rotation_y ∧
        B < ((fun t => update_rotation t dt)^[m] initial_rotation).rotation_z) := by
  have hiter : ∀ m : ℕ,
      (fun t => update_rotation t dt)^[m] initial_rotation =
        ⟨20 * m * dt, 30 * m * dt, 25 * m * dt⟩ := by
    intro m
    induction m with
    | zero => simp [initial_rotation]
    | succ k ih =>
      rw [Function.iterate_succ_apply', ih]
      ext <;> simp [update_rotation] <;> ring
  refine ⟨⟨rfl, rfl, rfl⟩, ?_, ?_⟩
  · refine ⟨?_, ?_, ?_⟩ <;> simp [update_rotation] <;> nlinarith
  · intro B hpos
    obtain ⟨m, hm⟩ := exists_nat_gt (max 0 (B / (20 * dt)))
    refine ⟨m, ?_⟩
    rw [hiter m]
    dsimp only
    have h20 : (0 : ℝ) < 20 * dt := by linarith
    have hB : B / (20 * dt) < m := lt_of_le_of_lt (le_max_right _ _) hm
    have hBlt : B < 20 * m * dt := by
      have := (div_lt_iff₀ h20).mp hB
      nlinarith
    have hm0 : (0 : ℝ) ≤ (m : ℝ) := Nat.cast_nonneg m
    have hmdt : (0 : ℝ) ≤ (m : ℝ) * dt := mul_nonneg hm0 hdt
    refine ⟨hBlt, by nlinarith, by nlinarith⟩

/-- Witness for C9: a concrete tick from angles (1,2,3) with dt = 1. -/
theorem rotation_angles_monotone_unbounded_witness :
    (0 : ℝ) ≤ 1 ∧
    (((update_rotation ⟨1, 2, 3⟩ 1).rotation_x = 1 + 20 * 1 ∧
      (update_rotation ⟨1, 2, 3⟩ 1).rotation_y = 2 + 30 * 1 ∧
      (update_rotation ⟨1, 2, 3⟩ 1).rotation_z = 3 + 25 * 1) ∧
     ((1 : ℝ) ≤ (update_rotation ⟨1, 2, 3⟩ 1).rotation_x ∧
      (2 : ℝ) ≤ (update_rotation ⟨1, 2, 3⟩ 1).rotation_y ∧
      (3 : ℝ) ≤ (update_rotation ⟨1, 2, 3⟩ 1).rotation_z) ∧
     (∀ B : ℝ, 0 < (1 : ℝ) → ∃ m : ℕ,
        B < ((fun t => update_rotation t 1)^[m] initial_rotation).rotation_x ∧
        B < ((fun t => update_rotation t 1)^[m] initial_rotation).rotation_y ∧
        B < ((fun t => update_rotation t 1)^[m] initial_rotation).rotation_z)) :=
  ⟨by norm_num, rotation_angles_monotone_unbounded ⟨1, 2, 3⟩ 1 (by norm_num)⟩

end Claseex
